import Mathlib

/-!
Verification of the explodomatica sample-buffer pipeline (src/explodomatica.c).

A `struct sound` is a `double` array together with a valid length `nsamples`;
we embed the valid region as a `List ℚ` (exact rational arithmetic standing in
for IEEE doubles — none of the properties below depends on rounding).
Where the C code performs a division by zero (which yields a non-finite IEEE
value, NaN or an infinity) the embedding produces `Option.none` for the
affected sample; where the C code accesses a sample outside the valid region
(undefined behaviour) the embedding of the whole operation returns
`Option.none`.  Every definition is a direct transcription of the
corresponding C function.
-/

namespace Explodomatica

/-- The running maximum of `fabs(s->data[i])` computed by the first loop of
`renormalize` (src/explodomatica.c lines 296-300): starts at `0.0`, replaced
whenever `fabs(s->data[i]) > max`. -/
def maxAbsSample (l : List ℚ) : ℚ :=
  l.foldl (fun m x => if |x| > m then |x| else m) 0

/-- `renormalize` (src/explodomatica.c lines 293-303): computes
`max = maxAbsSample` and then unconditionally sets
`s->data[i] = s->data[i] / (1.001 * max)` for every sample.  When
`max = 0` the divisor is `0.0` and every quotient (`0.0/0.0`) is NaN,
modelled as `none`; otherwise the quotient is the exact rational value,
modelled as `some`. -/
def renormalize (l : List ℚ) : List (Option ℚ) :=
  l.map (fun x =>
    if (1001 / 1000 : ℚ) * maxAbsSample l = 0 then none
    else some (x / ((1001 / 1000 : ℚ) * maxAbsSample l)))

/-- `trim_trailing_silence` (src/explodomatica.c lines 425-433): the loop
visits every index `i` of the original buffer from `nsamples - 1` down to `0`
(the loop condition is `i >= 0`, so it never terminates early) and decrements
`s->nsamples` once for every sample with `fabs(s->data[i]) < 0.00001`.  The
data is untouched; the function returns the new `nsamples`. -/
def trim_trailing_silence (l : List ℚ) : ℕ :=
  l.length - l.countP (fun x => |x| < 1 / 100000)

/-- `delay_effect_in_place` (src/explodomatica.c lines 318-332) for a
non-negative `delay_samples`.  The C loop runs from the last index down to
`0`, writing `data[i] = data[i - d]` when `0 < i - d` (reading a value not yet
overwritten, since writes happen at larger indices first), `data[i] = 0.0`
when `i - d <= 0`, and leaving `data[i]` alone when `i - d >= nsamples`
(impossible for `d >= 0`). -/
def delay_effect_in_place (l : List ℚ) (d : ℕ) : List ℚ :=
  (List.range l.length).map (fun (i : ℕ) =>
    let source : ℤ := (i : ℤ) - (d : ℤ)
    if (l.length : ℤ) > source then
      if source > 0 then l.getD source.toNat 0 else 0
    else l.getD i 0)

/-- The filter coefficient computed at index `i` inside the loop of
`sliding_low_pass` (src/explodomatica.c lines 216-218):
`alpha = (i / nsamples) * (alpha2 - alpha1) + alpha1`, then squared. -/
def slp_alpha (n i : ℕ) (a1 a2 : ℚ) : ℚ :=
  let a := ((i : ℚ) / (n : ℚ)) * (a2 - a1) + a1
  a * a

/-- The value `o->data[i]` produced by `sliding_low_pass`
(src/explodomatica.c lines 203-224): `o->data[0] = s->data[0]` and
`o->data[i] = o->data[i-1] + alpha * (s->data[i] - o->data[i-1])` with
`alpha = slp_alpha`. -/
def slp_val (l : List ℚ) (a1 a2 : ℚ) : ℕ → ℚ
  | 0 => l.getD 0 0
  | i + 1 =>
      slp_val l a1 a2 i +
        slp_alpha l.length (i + 1) a1 a2 * (l.getD (i + 1) 0 - slp_val l a1 a2 i)

/-- `sliding_low_pass` (src/explodomatica.c lines 203-224): allocates an
output of `s->nsamples` entries and unconditionally executes
`o->data[0] = s->data[0]` before the loop; on a zero-length buffer that read
(and write) is out of bounds, modelled as `none`.  Otherwise the output is
the recurrence `slp_val` at every index. -/
def sliding_low_pass (l : List ℚ) (a1 a2 : ℚ) : Option (List ℚ) :=
  if l.length = 0 then none
  else some ((List.range l.length).map (slp_val l a1 a2))

/-- `interpolate` (src/explodomatica.c lines 236-246): linear interpolation
through `(x1, y1)` and `(x2, y2)` evaluated at `x`, except that when
`fabs(x2 - x1) < 0.01 * 1.0 / SAMPLERATE` it returns the midpoint
`(y1 + y2) / 2` instead of dividing by the near-zero span. -/
def interpolate (x x1 y1 x2 y2 : ℚ) : ℚ :=
  if |x2 - x1| < (1 / 100 : ℚ) * 1 / 44100 then (y1 + y2) / 2
  else (x - x1) * (y2 - y1) / (x2 - x1) + y1

/-- The index `sp1 = (int) sample_point` computed by `change_speed`
(src/explodomatica.c lines 262-263), where
`sample_point = (double) i / (double) nsamples * (double) s->nsamples`.
The value is non-negative, so the C truncation toward zero is the floor. -/
def cs_sp1 (oldN nsamples i : ℕ) : ℤ :=
  ⌊((i : ℚ) / (nsamples : ℚ)) * (oldN : ℚ)⌋

/-- The body of the `change_speed` loop at output index `i >= 1`
(src/explodomatica.c lines 261-267): reads `s->data[sp1]` and `s->data[sp2]`
with `sp2 = sp1 + 1` and interpolates; a read outside the valid region is
out of bounds, modelled as `none`. -/
def cs_val (l : List ℚ) (nsamples i : ℕ) : Option ℚ :=
  let sample_point : ℚ := ((i : ℚ) / (nsamples : ℚ)) * (l.length : ℚ)
  let sp1 : ℤ := cs_sp1 l.length nsamples i
  let sp2 : ℤ := sp1 + 1
  match l[sp1.toNat]?, l[sp2.toNat]? with
  | some y1, some y2 => some (interpolate sample_point (sp1 : ℚ) y1 (sp2 : ℚ) y2)
  | _, _ => none

/-- `change_speed` (src/explodomatica.c lines 248-270):
`nsamples = (int) (s->nsamples / factor)`, then unconditionally
`o->data[0] = s->data[0]` (out of bounds when the source is empty, and an
out-of-bounds store into the `nsamples`-sized output when `nsamples = 0`),
then the interpolation loop for `i` in `[1, nsamples)`.  The successful
result has exactly `nsamples` samples. -/
def change_speed (l : List ℚ) (factor : ℚ) : Option (List ℚ) :=
  let nsamples : ℕ := (⌊(l.length : ℚ) / factor⌋).toNat
  if nsamples = 0 then none
  else
    match l[0]? with
    | none => none
    | some x0 =>
        ((List.range (nsamples - 1)).mapM (fun j => cs_val l nsamples (j + 1))).map
          (fun rest => x0 :: rest)

/-- `fadeout` (src/explodomatica.c lines 189-198): multiplies `data[i]` by
`1.0 - i / n` for every `i < n`.  Every call site passes `n = s->nsamples`;
for `n <= nsamples` (the in-bounds case the claims quantify over) the loop
touches exactly the first `n` samples of the valid region. -/
def fadeout (l : List ℚ) (n : ℕ) : List ℚ :=
  (List.range l.length).map (fun i =>
    if i < n then (1 - (i : ℚ) / (n : ℚ)) * l.getD i 0 else l.getD i 0)

/-- The bounds-checked account of the `fadeout` loop (src/explodomatica.c
lines 194-196): the C loop stores into `s->data[i]` for every `i < n` with
no bounds check, so whenever `n` exceeds the buffer's valid length the
stores at indices `[length, n)` land outside the allocation (undefined
behaviour, modelled `none`); within bounds it is exactly `fadeout`. -/
def fadeout_checked (l : List ℚ) (n : ℕ) : Option (List ℚ) :=
  if l.length < n then none else some (fadeout l n)

/-- `add_sound` (src/explodomatica.c lines 142-164): output length
`n = max(s1->nsamples, s2->nsamples)`; each output sample starts at `0.0`
and adds `s1->data[i]` when `i < s1->nsamples` and `s2->data[i]` when
`i < s2->nsamples`. -/
def add_sound (s1 s2 : List ℚ) : List ℚ :=
  (List.range (max s1.length s2.length)).map (fun i =>
    (if i < s1.length then s1.getD i 0 else 0) +
      (if i < s2.length then s2.getD i 0 else 0))

/-- `accumulate_sound` (src/explodomatica.c lines 166-174) acting on the
state `(acc, inc)`: computes `t = add_sound(acc, inc)`, frees `acc`'s old
storage and moves `t`'s data and length into `acc`; `inc` is only read. -/
def accumulate_sound (st : List ℚ × List ℚ) : List ℚ × List ℚ :=
  (add_sound st.1 st.2, st.2)

/-- The spec's `mix(a, b)`, stated in its own words for comparison with
`add_sound`: elementwise sum over `max(len(a), len(b))` samples, treating
missing samples in the shorter buffer as zero. -/
def mixSpec (a b : List ℚ) : List ℚ :=
  (List.range (max a.length b.length)).map (fun i => a.getD i 0 + b.getD i 0)

/-- The filter-pass count of `make_explosion` (src/explodomatica.c lines
407-409): `iters = 3 - i; if (iters < 0) iters = 1;` — the number of times
the pair `sliding_low_pass_inplace(t, a1, a2); renormalize(t);` is executed
for layer `i`. -/
def make_explosion_lowpass_iters (i : ℤ) : ℤ :=
  let iters := 3 - i
  if iters < 0 then 1 else iters

/-! ## Helper lemmas -/

/-- `getD` of a list built by mapping a function over `List.range`, at an
in-range index, is the function's value there. -/
theorem range_map_getD (n : ℕ) (f : ℕ → ℚ) (i : ℕ) (h : i < n) :
    ((List.range n).map f).getD i 0 = f i := by
  have hl : i < ((List.range n).map f).length := by simpa using h
  rw [List.getD_eq_getElem _ _ hl]
  simp

/-- `fadeout` preserves the valid length. -/
theorem fadeout_length (l : List ℚ) (n : ℕ) : (fadeout l n).length = l.length := by
  simp [fadeout]

/-- Pointwise description of a single `fadeout` pass. -/
theorem fadeout_getD (l : List ℚ) (n i : ℕ) (h : i < l.length) :
    (fadeout l n).getD i 0 =
      if i < n then (1 - (i : ℚ) / (n : ℚ)) * l.getD i 0 else l.getD i 0 := by
  unfold fadeout
  rw [range_map_getD _ _ _ h]

/-- Iterating `fadeout` preserves the valid length. -/
theorem fadeout_iter_length (l : List ℚ) (n k : ℕ) :
    (((fun u => fadeout u n)^[k]) l).length = l.length := by
  induction k generalizing l with
  | zero => rfl
  | succ k ih =>
      rw [Function.iterate_succ_apply]
      rw [ih (fadeout l n)]
      exact fadeout_length l n

/-- Pointwise description of `k` iterated `fadeout` passes over the same
prefix: the per-pass linear factors compound into a `k`-th power. -/
theorem fadeout_iter_getD (l : List ℚ) (n k i : ℕ) (h : i < l.length) :
    (((fun u => fadeout u n)^[k]) l).getD i 0 =
      if i < n then (1 - (i : ℚ) / (n : ℚ)) ^ k * l.getD i 0 else l.getD i 0 := by
  induction k generalizing l with
  | zero =>
      simp only [Function.iterate_zero, id_eq, pow_zero, one_mul]
      split_ifs <;> rfl
  | succ k ih =>
      rw [Function.iterate_succ_apply]
      rw [ih (fadeout l n) (by rw [fadeout_length]; exact h)]
      rw [fadeout_getD l n i h]
      split_ifs with hin
      · ring
      · rfl

/-! ## Claim theorems -/

/-- Claim C1.  The claim says `renormalize` is a no-op when the maximum
absolute sample `M` is `0` (dividing only when `M > 0`).  The code has no
such guard: on the all-zero one-sample buffer it computes `0.0 / (1.001*0.0)`,
a division by zero whose IEEE result is NaN (modelled `none`), so the buffer
does not stay unchanged. -/
theorem renormalize_zero_buffer_becomes_nan :
    renormalize [(0 : ℚ)] = [none] ∧ renormalize [(0 : ℚ)] ≠ List.map some [(0 : ℚ)] := by
  constructor
  · norm_num [renormalize, maxAbsSample]
  · norm_num [renormalize, maxAbsSample]
    decide

/-- Claim C2.  The claim says `trim_trailing_silence` stops at the first
non-silent sample scanning from the end and never discounts interior silence.
The code's loop has no early exit: on `[0, 1]`, whose final sample has
magnitude `1 ≥ 1e-5`, the claimed result is length `2`, but the code also
counts the interior silent sample at index `0` and shrinks the length to `1`,
dropping the non-silent final sample from the valid region. -/
theorem trim_discounts_interior_silence :
    trim_trailing_silence [(0 : ℚ), 1] = 1 ∧
      ¬ (|(1 : ℚ)| < 1 / 100000) ∧
      trim_trailing_silence [(0 : ℚ), 1] ≠ 2 := by
  refine ⟨?_, by norm_num, ?_⟩ <;>
    norm_num [trim_trailing_silence, List.countP, List.countP.go]

/-- Claim C3.  The claim says delay `0` is the identity.  The code's inner
test is `source > 0`, not `source >= 0`, so at index `i = delay_samples` it
writes `0.0` instead of `data[0]`: with delay `0` the buffer `[1]` becomes
`[0]`, not `[1]`.  (The other half of the claim, delay = length giving an
all-zero buffer of the same length, does hold: `[1]` with delay `1` gives
`[0]`.) -/
theorem delay_zero_zeroes_first_sample :
    delay_effect_in_place [(1 : ℚ)] 0 = [0] ∧
      delay_effect_in_place [(1 : ℚ)] 0 ≠ [1] ∧
      delay_effect_in_place [(1 : ℚ)] 1 = [0] := by
  refine ⟨?_, ?_, ?_⟩ <;> norm_num [delay_effect_in_place, List.range_succ]

/-- Claim C4, counterexample.  The claim says the low-pass-and-normalize pair
runs `max(3 - i, 1)` times for every layer `i`.  The code clamps
`iters = 3 - i` to `1` only when it is negative (`if (iters < 0)`), so layer
`i = 3` gets `0` passes while `max(3 - 3, 1) = 1`. -/
theorem make_explosion_lowpass_iters_at_layer_three :
    make_explosion_lowpass_iters 3 = 0 ∧
      max (3 - (3 : ℤ)) 1 = 1 ∧
      make_explosion_lowpass_iters 3 ≠ max (3 - (3 : ℤ)) 1 := by
  refine ⟨?_, ?_, ?_⟩ <;> norm_num [make_explosion_lowpass_iters]

/-- Claim C4, amended.  For every layer index other than `3` the
low-pass-and-normalize pass count equals `max(3 - i, 1)`; layer `3` alone
gets `0` passes (so not every layer receives a pass). -/
theorem make_explosion_lowpass_iters_eq_max_except_three (i : ℤ) (h : i ≠ 3) :
    make_explosion_lowpass_iters i = max (3 - i) 1 ∧
      make_explosion_lowpass_iters 3 = 0 := by
  refine ⟨?_, by norm_num [make_explosion_lowpass_iters]⟩
  simp only [make_explosion_lowpass_iters]
  split_ifs with hlt <;> omega

/-- Witness for the amended Claim C4 at the concrete layer index `0`. -/
theorem make_explosion_lowpass_iters_eq_max_witness :
    (0 : ℤ) ≠ 3 ∧
      (make_explosion_lowpass_iters 0 = max (3 - (0 : ℤ)) 1 ∧
        make_explosion_lowpass_iters 3 = 0) :=
  ⟨by decide, make_explosion_lowpass_iters_eq_max_except_three 0 (by decide)⟩

/-- Claim C5.  There is an input buffer and a speed factor below `1` for
which `change_speed`'s interpolation at the last output sample uses
`sp2 = sp1 + 1` equal to the source length, i.e. one past the last valid
source index: with the two-sample buffer `[3, 5]` and factor `1/2`
(`nsamples = 4`, last output index `3`) the code computes `sp1 = 1` and
`sp2 = 2 = oldLength`, and the out-of-bounds read makes the whole
computation undefined (modelled `none`). -/
theorem change_speed_final_read_out_of_bounds :
    ∃ (l : List ℚ) (factor : ℚ), 0 < factor ∧ factor < 1 ∧ 0 < l.length ∧
      cs_sp1 l.length ((⌊(l.length : ℚ) / factor⌋).toNat)
          ((⌊(l.length : ℚ) / factor⌋).toNat - 1) + 1 = (l.length : ℤ) ∧
      change_speed l factor = none := by
  refine ⟨[3, 5], 1 / 2, by norm_num, by norm_num, by norm_num, ?_, ?_⟩
  · norm_num [cs_sp1, show (Int.toNat 4) = 4 from rfl]
  · norm_num [change_speed, cs_val, cs_sp1, interpolate]
    norm_num [show (Int.toNat 4) = 4 from rfl, show List.range 3 = [0, 1, 2] from rfl,
      show (Int.toNat 2) = 2 from rfl, show ([(3 : ℚ), 5])[2]? = none from rfl,
      List.mapM.loop]

/-- Claim C6, counterexample.  The claim says `sliding_low_pass` and
`change_speed` on a zero-length buffer perform no out-of-bounds reads and
yield an empty result.  Both unconditionally execute
`o->data[0] = s->data[0]`, an out-of-bounds access on the empty buffer
(modelled `none`), and neither returns the empty buffer. -/
theorem zero_length_buffer_counterexample :
    sliding_low_pass ([] : List ℚ) 1 1 = none ∧
      sliding_low_pass ([] : List ℚ) 1 1 ≠ some [] ∧
      change_speed ([] : List ℚ) (1 / 4) = none ∧
      change_speed ([] : List ℚ) (1 / 4) ≠ some [] := by
  refine ⟨?_, ?_, ?_, ?_⟩ <;> simp [sliding_low_pass, change_speed]

/-- Claim C6, amended.  On a zero-length buffer, `renormalize`,
`delay_effect_in_place`, `trim_trailing_silence` and `add_sound` are no-ops
returning an empty result, and `fadeout` over the zero-length prefix
`n = 0` — the only prefix the program ever passes on an empty buffer, since
every call site uses `n = s->nsamples` — is a no-op, while `fadeout` with
any positive prefix stores out of bounds (modelled `none`); and
`sliding_low_pass` and `change_speed` both unconditionally read source
sample `0` — an out-of-bounds access on the empty buffer (modelled `none`)
— and yield no empty result. -/
theorem zero_length_buffer_behaviour (a1 a2 f : ℚ) (n d : ℕ) :
    sliding_low_pass ([] : List ℚ) a1 a2 = none ∧
      change_speed ([] : List ℚ) f = none ∧
      renormalize ([] : List ℚ) = [] ∧
      fadeout_checked ([] : List ℚ) n = (if n = 0 then some [] else none) ∧
      delay_effect_in_place ([] : List ℚ) d = [] ∧
      trim_trailing_silence ([] : List ℚ) = 0 ∧
      add_sound ([] : List ℚ) [] = [] := by
  refine ⟨by simp [sliding_low_pass], by simp [change_speed], by simp [renormalize],
    ?_, by simp [delay_effect_in_place], by simp [trim_trailing_silence],
    by simp [add_sound]⟩
  cases n <;> simp [fadeout_checked, fadeout]

/-- Claim C7.  For a buffer of length `n ≥ 1`, `sliding_low_pass` returns a
new buffer of the same length with `out[0] = in[0]` and, for `1 ≤ i < n`,
`out[i] = out[i-1] + alpha_eff(i) * (in[i] - out[i-1])` where
`alpha_eff(i) = ((i/n) * (alpha2 - alpha1) + alpha1)^2` — the linearly swept
coefficient squared before use. -/
theorem sliding_low_pass_recurrence (l : List ℚ) (a1 a2 : ℚ) (h : 1 ≤ l.length) :
    ∃ o, sliding_low_pass l a1 a2 = some o ∧ o.length = l.length ∧
      o.getD 0 0 = l.getD 0 0 ∧
      ∀ i, 1 ≤ i → i < l.length →
        o.getD i 0 = o.getD (i - 1) 0 +
          (((i : ℚ) / (l.length : ℚ)) * (a2 - a1) + a1) ^ 2 *
            (l.getD i 0 - o.getD (i - 1) 0) := by
  refine ⟨(List.range l.length).map (slp_val l a1 a2), ?_, by simp, ?_, ?_⟩
  · unfold sliding_low_pass
    rw [if_neg (by omega)]
  · rw [range_map_getD _ _ _ (by omega)]
    rfl
  · intro i h1 hi
    obtain ⟨j, rfl⟩ : ∃ j, i = j + 1 := ⟨i - 1, by omega⟩
    rw [range_map_getD _ _ _ hi]
    simp only [Nat.add_sub_cancel]
    rw [range_map_getD _ _ _ (by omega)]
    have hstep : slp_val l a1 a2 (j + 1) =
        slp_val l a1 a2 j +
          slp_alpha l.length (j + 1) a1 a2 * (l.getD (j + 1) 0 - slp_val l a1 a2 j) := rfl
    rw [hstep]
    unfold slp_alpha
    ring

/-- Witness for Claim C7 at the concrete buffer `[1, 2]` with
`alpha1 = 1`, `alpha2 = 0`. -/
theorem sliding_low_pass_recurrence_witness :
    1 ≤ ([(1 : ℚ), 2]).length ∧
      (∃ o, sliding_low_pass [(1 : ℚ), 2] 1 0 = some o ∧
        o.length = ([(1 : ℚ), 2]).length ∧
        o.getD 0 0 = ([(1 : ℚ), 2]).getD 0 0 ∧
        ∀ i, 1 ≤ i → i < ([(1 : ℚ), 2]).length →
          o.getD i 0 = o.getD (i - 1) 0 +
            (((i : ℚ) / (([(1 : ℚ), 2]).length : ℚ)) * (0 - 1) + 1) ^ 2 *
              (([(1 : ℚ), 2]).getD i 0 - o.getD (i - 1) 0)) :=
  ⟨by decide, sliding_low_pass_recurrence [1, 2] 1 0 (by decide)⟩

/-- Claim C8.  Applying `fadeout` over the same prefix `n ≥ 1` of a buffer a
total of `k` times multiplies each sample at index `i < n` by `(1 - i/n)^k`
and leaves samples at indices `≥ n` unchanged; a single application scales
sample `i` by the linear factor `1 - i/n`, which is `1.0` at sample `0`. -/
theorem fadeout_compound (l : List ℚ) (n k i : ℕ)
    (hn : 1 ≤ n) (hnl : n ≤ l.length) (hi : i < l.length) :
    (((fun u => fadeout u n)^[k]) l).length = l.length ∧
      (((fun u => fadeout u n)^[k]) l).getD i 0 =
        (if i < n then (1 - (i : ℚ) / (n : ℚ)) ^ k * l.getD i 0 else l.getD i 0) ∧
      (fadeout l n).getD i 0 =
        (if i < n then (1 - (i : ℚ) / (n : ℚ)) * l.getD i 0 else l.getD i 0) ∧
      (1 - (0 : ℚ) / (n : ℚ)) = 1 :=
  ⟨fadeout_iter_length l n k, fadeout_iter_getD l n k i hi, fadeout_getD l n i hi, by simp⟩

/-- Witness for Claim C8 at the buffer `[5, 7]`, prefix `2`, `k = 2`
iterations, sample index `1`. -/
theorem fadeout_compound_witness :
    1 ≤ 2 ∧ 2 ≤ ([(5 : ℚ), 7]).length ∧ 1 < ([(5 : ℚ), 7]).length ∧
      ((((fun u => fadeout u 2)^[2]) [(5 : ℚ), 7]).length = ([(5 : ℚ), 7]).length ∧
        (((fun u => fadeout u 2)^[2]) [(5 : ℚ), 7]).getD 1 0 =
          (if 1 < 2 then (1 - (1 : ℚ) / (2 : ℚ)) ^ 2 * ([(5 : ℚ), 7]).getD 1 0
            else ([(5 : ℚ), 7]).getD 1 0) ∧
        (fadeout [(5 : ℚ), 7] 2).getD 1 0 =
          (if 1 < 2 then (1 - (1 : ℚ) / (2 : ℚ)) * ([(5 : ℚ), 7]).getD 1 0
            else ([(5 : ℚ), 7]).getD 1 0) ∧
        (1 - (0 : ℚ) / (2 : ℚ)) = 1) :=
  ⟨by decide, by decide, by decide, fadeout_compound [5, 7] 2 2 1 (by decide) (by decide) (by decide)⟩

/-- Claim C9.  `accumulate_sound` leaves the accumulator holding exactly the
spec's `mix` of its old contents with the increment — the elementwise sum
over `max` of the two lengths with missing samples treated as zero — and the
increment component of the state is unchanged. -/
theorem accumulate_sound_is_mix (acc inc : List ℚ) :
    accumulate_sound (acc, inc) = (mixSpec acc inc, inc) ∧
      (accumulate_sound (acc, inc)).2 = inc ∧
      (add_sound acc inc).length = max acc.length inc.length := by
  have hpad : ∀ (m : List ℚ) (i : ℕ),
      (if i < m.length then m.getD i 0 else (0 : ℚ)) = m.getD i 0 := by
    intro m i
    split_ifs with hlt
    · rfl
    · exact (List.getD_eq_default m 0 (le_of_not_lt hlt)).symm
  have hadd : add_sound acc inc = mixSpec acc inc := by
    unfold add_sound mixSpec
    exact List.map_congr_left (fun i _ => by rw [hpad acc i, hpad inc i])
  exact ⟨by simp only [accumulate_sound, hadd], rfl, by simp [add_sound]⟩

/-- Claim C10.  Every call `change_speed` makes to `interpolate` passes
`x1 = sp1` and `x2 = sp1 + 1`, so the bracketing span `x2 - x1` is exactly
`1` — above the `0.01/44100` degeneracy threshold — hence the
midpoint-averaging branch of `interpolate` is unreachable from
`change_speed` and the division's denominator is exactly `1`. -/
theorem change_speed_interpolate_unit_span (oldN nsamples i : ℕ) (x y1 y2 : ℚ) :
    ((cs_sp1 oldN nsamples i + 1 : ℤ) : ℚ) - ((cs_sp1 oldN nsamples i : ℤ) : ℚ) = 1 ∧
      ¬ (|((cs_sp1 oldN nsamples i + 1 : ℤ) : ℚ) - ((cs_sp1 oldN nsamples i : ℤ) : ℚ)| <
          (1 / 100 : ℚ) * 1 / 44100) ∧
      interpolate x ((cs_sp1 oldN nsamples i : ℤ) : ℚ) y1
          ((cs_sp1 oldN nsamples i + 1 : ℤ) : ℚ) y2 =
        (x - ((cs_sp1 oldN nsamples i : ℤ) : ℚ)) * (y2 - y1) + y1 := by
  have h1 : ((cs_sp1 oldN nsamples i + 1 : ℤ) : ℚ) - ((cs_sp1 oldN nsamples i : ℤ) : ℚ) = 1 := by
    push_cast
    ring
  refine ⟨h1, ?_, ?_⟩
  · rw [h1]
    norm_num
  · unfold interpolate
    rw [h1, if_neg (by norm_num), div_one]

end Explodomatica
